import Mathlib

set_option maxRecDepth 10000

/-!
Verification development for the AgriSathi backend (`app.py`).

The file shallowly embeds the Python source: Python strings are modelled
as Lean `String`s (lists of characters), the Python string methods used by
the source (`lower`, `strip`, `title`, `replace`, `split`, the `in`
containment test) are reimplemented character by character for the ASCII
range the application works with, JSON values are a small inductive type,
exceptions are an explicit `Except`, and the one outbound HTTP call is a
parameter describing what the external world does on that call.
-/

namespace AgriSathi

/-! ## Python string primitives -/

/-- Whitespace characters removed by Python `str.strip()` (`\x0b` is
vertical tab, `\x0c` is form feed). -/
def pyIsSpace (c : Char) : Bool :=
  c = ' ' || c = '\t' || c = '\n' || c = '\r' || c = '\x0b' || c = '\x0c'

/-- Lower-casing of one character, as Python `str.lower()` acts on the
ASCII range (the only range the application's data uses). -/
def pyLowerChar (c : Char) : Char :=
  if 'A' ≤ c ∧ c ≤ 'Z' then Char.ofNat (c.toNat + 32) else c

/-- Upper-casing of one character on the ASCII range. -/
def pyUpperChar (c : Char) : Char :=
  if 'a' ≤ c ∧ c ≤ 'z' then Char.ofNat (c.toNat - 32) else c

/-- ASCII letter test, as Python `str.isalpha()` acts on ASCII input. -/
def pyIsAlpha (c : Char) : Bool :=
  ('a' ≤ c ∧ c ≤ 'z') || ('A' ≤ c ∧ c ≤ 'Z')

/-- Python `str.lower()`. -/
def pyLower (s : String) : String :=
  ⟨s.data.map pyLowerChar⟩

/-- Python `str.strip()`: drop whitespace from both ends. -/
def pyStripL (s : List Char) : List Char :=
  ((s.dropWhile pyIsSpace).reverse.dropWhile pyIsSpace).reverse

/-- Python `str.strip()` on `String`. -/
def pyStrip (s : String) : String :=
  ⟨pyStripL s.data⟩

/-- Helper for `pyTitle`: `prevAlpha` records whether the previous
character was a letter (then the current letter is lower-cased, else it
starts a word and is upper-cased), exactly Python `str.title()`. -/
def pyTitleL : List Char → Bool → List Char
  | [], _ => []
  | c :: cs, prevAlpha =>
    if pyIsAlpha c then
      (if prevAlpha then pyLowerChar c else pyUpperChar c) :: pyTitleL cs true
    else
      c :: pyTitleL cs false

/-- Python `str.title()`. -/
def pyTitle (s : String) : String :=
  ⟨pyTitleL s.data false⟩

/-- Whether `pat` is an initial segment of `s`; when it is, also the rest
of `s` behind it. `none` means `pat` does not start `s`. -/
def stripHead : List Char → List Char → Option (List Char)
  | [], s => some s
  | _ :: _, [] => none
  | p :: ps, c :: cs => if p = c then stripHead ps cs else none

/-- Splitting at the first occurrence of `sep`: `some (a, b)` when
`s = a ++ sep ++ b` with `a` shortest, `none` when `sep` does not occur
in `s` (for nonempty `sep`). -/
def splitFirstL (sep : List Char) : List Char → Option (List Char × List Char)
  | [] => if sep.isEmpty then some ([], []) else none
  | c :: cs =>
    match stripHead sep (c :: cs) with
    | some rest => some ([], rest)
    | none =>
      match splitFirstL sep cs with
      | some (a, b) => some (c :: a, b)
      | none => none

/-- Fuel-driven repetition of `splitFirstL`; with fuel at least the length
of the string plus one this is Python `str.split(sep)` for nonempty `sep`. -/
def pySplitFuel (sep : List Char) : Nat → List Char → List (List Char)
  | 0, s => [s]
  | n + 1, s =>
    match splitFirstL sep s with
    | none => [s]
    | some (a, b) => a :: pySplitFuel sep n b

/-- Python `str.split(sep)` for a nonempty separator, on character lists. -/
def pySplitL (sep s : List Char) : List (List Char) :=
  pySplitFuel sep (s.length + 1) s

/-- Python `str.split(sep)` for a nonempty separator. -/
def pySplit (sep s : String) : List String :=
  (pySplitL sep.data s.data).map fun l => ⟨l⟩

/-- Splitting a `String` at the first occurrence of `sep`. -/
def splitFirst (sep s : String) : Option (String × String) :=
  (splitFirstL sep.data s.data).map fun p => (⟨p.1⟩, ⟨p.2⟩)

/-- Python `sep.join(parts)`. -/
def pyJoinL (sep : List Char) : List (List Char) → List Char
  | [] => []
  | [x] => x
  | x :: y :: rest => x ++ sep ++ pyJoinL sep (y :: rest)

/-- Python `s.replace(old, new)` for a nonempty `old`, via the standard
identity `s.replace(old, new) = new.join(s.split(old))`. -/
def pyReplace (s old new : String) : String :=
  ⟨pyJoinL new.data (pySplitL old.data s.data)⟩

/-- Python substring containment `sub in s` for a nonempty `sub`: some
position of `s` starts an occurrence of `sub`. -/
def strContainsL (sub : List Char) : List Char → Bool
  | [] => (stripHead sub []).isSome
  | c :: cs => (stripHead sub (c :: cs)).isSome || strContainsL sub cs

/-- Python substring containment on `String`. -/
def strContains (s sub : String) : Bool :=
  strContainsL sub.data s.data

/-! ## JSON values

Python dictionaries, lists, strings and numbers as they flow through the
application (`json.dumps` and `json.loads` are inverse on this type, so
the tool boundary, which serializes and immediately parses, is modelled
as passing the structured value through). -/

/-- JSON values. An object keeps its fields in insertion order, as Python
dictionaries do. -/
inductive Json where
  | null
  | str (s : String)
  | num (n : Int)
  | arr (xs : List Json)
  | obj (fields : List (String × Json))

mutual

/-- Structural equality of JSON values, Python `==` on the corresponding
Python values. -/
def Json.beq : Json → Json → Bool
  | .null, .null => true
  | .str a, .str b => a == b
  | .num a, .num b => a == b
  | .arr a, .arr b => Json.beqList a b
  | .obj a, .obj b => Json.beqFields a b
  | _, _ => false

/-- Elementwise `Json.beq` on lists. -/
def Json.beqList : List Json → List Json → Bool
  | [], [] => true
  | a :: as, b :: bs => Json.beq a b && Json.beqList as bs
  | _, _ => false

/-- Fieldwise `Json.beq` on object fields. -/
def Json.beqFields : List (String × Json) → List (String × Json) → Bool
  | [], [] => true
  | (k, v) :: as, (l, w) :: bs => k == l && Json.beq v w && Json.beqFields as bs
  | _, _ => false

end

/-- Field lookup in an object's field list (first match; Python
dictionaries have unique keys, so this is Python key lookup). -/
def jsonLookup : List (String × Json) → String → Option Json
  | [], _ => none
  | (k, v) :: rest, key => if k = key then some v else jsonLookup rest key

/-- Python truthiness of a JSON value (`None`, `""`, `0`, `[]` and
an empty dictionary are falsy). -/
def truthy : Json → Bool
  | .null => false
  | .str s => s ≠ ""
  | .num n => n ≠ 0
  | .arr xs => ¬ xs.isEmpty
  | .obj fs => ¬ fs.isEmpty

/-- Python `str()` of a value, as used by the f-string
`f"price of {commodity} in {state}"`. The fields are strings in every
intended request; the rendering of container values is a placeholder that
no claim depends on. -/
def pyToStr : Json → String
  | .str s => s
  | .num n => Int.repr n
  | .null => "None"
  | .arr _ => "<list>"
  | .obj _ => "<dict>"

/-! ## Python exceptions -/

/-- Exceptions the embedded code distinguishes: `requests`-level failures
(class `requests.exceptions.RequestException`) against every other
exception, each carrying its `str(e)` rendering. -/
inductive PyExc where
  | reqExc (detail : String)
  | other (detail : String)

/-- Message `str(e)` of an exception. -/
def PyExc.detail : PyExc → String
  | .reqExc d => d
  | .other d => d

/-- Python `data.get(key, dflt)`: defaulting dictionary lookup, raising
`AttributeError` when `data` is not a dictionary. -/
def pyGetD (j : Json) (key : String) (dflt : Json) : Except PyExc Json :=
  match j with
  | .obj fs => .ok ((jsonLookup fs key).getD dflt)
  | _ => .error (.other "AttributeError: object has no attribute get")

/-- Python `data.get(key)` with no default: as `pyGetD` with `None`. -/
def pyGetN (j : Json) (key : String) : Except PyExc Json :=
  pyGetD j key Json.null

/-- Python `key in data` on a dictionary. -/
def hasKey (j : Json) (key : String) : Bool :=
  match j with
  | .obj fs => (jsonLookup fs key).isSome
  | _ => false

/-- Python `data[key]` under a preceding `key in data` guard. -/
def jsonIndex (j : Json) (key : String) : Json :=
  match j with
  | .obj fs => (jsonLookup fs key).getD Json.null
  | _ => Json.null

/-! ## The outbound HTTP call

The single `requests.get` in `market_price` is the program's only
interaction with the outside world; an `HttpWorld` value describes what
that interaction does: the call raises, or an HTTP response with a status
code, a reason phrase and a JSON body comes back. -/

/-- Behaviour of the external data API on the one `requests.get` call. -/
inductive HttpWorld where
  | raisesReqExc (detail : String)
  | raisesOther (detail : String)
  | response (status : Nat) (reason : String) (body : Json)

/-- Upper-case hexadecimal digit, as `urllib.parse.quote` uses. -/
def hexDigitChar (n : Nat) : Char :=
  if n < 10 then Char.ofNat (48 + n) else Char.ofNat (55 + n)

/-- Percent-encoding of one ASCII character as `urllib.parse.quote_plus`
(used by `requests` on query parameters): letters, digits, `_`, `.`,
`-` and `~` pass through, a space becomes `+`. -/
def urlQuoteChar (c : Char) : List Char :=
  if c = ' ' then ['+']
  else if pyIsAlpha c || ('0' ≤ c ∧ c ≤ '9') || c = '_' || c = '.' || c = '-' || c = '~' then [c]
  else ['%', hexDigitChar (c.toNat / 16), hexDigitChar (c.toNat % 16)]

/-- Percent-encoding of a string. -/
def urlQuote (s : String) : String :=
  ⟨(s.data.map urlQuoteChar).flatten⟩

/-- Query-string encoding of parameters, `urllib.parse.urlencode`. -/
def urlencodeParams (ps : List (String × String)) : String :=
  ⟨pyJoinL ['&'] (ps.map fun p => (urlQuote p.1).data ++ ['='] ++ (urlQuote p.2).data)⟩

/-- Full URL `requests` prepares from the base URL and the parameters;
`response.url` renders as this string. -/
def preparedUrl (base : String) (ps : List (String × String)) : String :=
  base ++ "?" ++ urlencodeParams ps

/-- Message of the `requests.exceptions.HTTPError` that
`response.raise_for_status()` raises for a 4xx or 5xx status: the requests
library formats it as the status code, `Client Error` or `Server Error`,
the reason phrase and the full URL of the request. -/
def httpErrorMsg (status : Nat) (reason url : String) : String :=
  if status < 500 then
    Nat.repr status ++ " Client Error: " ++ reason ++ " for url: " ++ url
  else
    Nat.repr status ++ " Server Error: " ++ reason ++ " for url: " ++ url

/-- Combined `requests.get(url)`, `response.raise_for_status()` and
`response.json()`: a raising world raises its exception,
`raise_for_status` turns a 4xx or 5xx status into an `HTTPError` (a
`RequestException`) whose message names the full URL, and otherwise the
response body is returned. -/
def requestsGetJson (world : HttpWorld) (url : String) : Except PyExc Json :=
  match world with
  | .raisesReqExc d => .error (.reqExc d)
  | .raisesOther d => .error (.other d)
  | .response status reason body =>
    if 400 ≤ status ∧ status < 600 then
      .error (.reqExc (httpErrorMsg status reason url))
    else
      .ok body

/-! ## The market_price tool -/

/-- Endpoint of the mandi price data API (`BASE_URL` in `app.py`). -/
def BASE_URL : String :=
  "https://api.data.gov.in/resource/9ef84268-d588-465a-a308-a864a43d0070"

/-- Error message for a query without the separator. -/
def formatErrorMsg : String :=
  "Format error. Use 'price of [commodity] in [state]'"

/-- Lines 33 to 39 of `app.py`: lower-case the query (the source
reassigns `query = query.lower()` first), require the separator, split,
remove `"price of "` from the first part and strip both parts. The
source tests `" in " not in query` and then splits; for the nonempty
separator the test fails exactly when the split has a single part, so
the test and the split are fused into one match. Python `parts[1]` is
the second part of the full split, and Python `replace` removes every
occurrence of `"price of "`, not only a front one. -/
def parse_market_query (query : String) : Option (String × String) :=
  match pySplit " in " (pyLower query) with
  | p0 :: p1 :: _ => some (pyStrip (pyReplace p0 "price of " ""), pyStrip p1)
  | _ => none

/-- Error payload of the two `except` arms of `market_price`. -/
def excPayload : PyExc → Json
  | .reqExc d => Json.obj [("error", Json.str ("API request failed: " ++ d))]
  | .other d => Json.obj [("error", Json.str ("Unexpected error: " ++ d))]

/-- The `market_price` tool (lines 26 to 63 of `app.py`). The result is
the structured value whose `json.dumps` rendering the Python function
returns. `world` stands for the external data API's behaviour on the one
`requests.get` call; when the parse fails that call is never reached, so
the result does not depend on `world`. -/
def market_price (world : HttpWorld) (apiKey : String) (query : String) : Json :=
  match parse_market_query query with
  | none => Json.obj [("error", Json.str formatErrorMsg)]
  | some (commodity, state) =>
    let params : List (String × String) :=
      [("api-key", apiKey),
       ("format", "json"),
       ("filters[state]", pyTitle state),
       ("filters[commodity]", pyTitle commodity),
       ("limit", "100")]
    let url := preparedUrl BASE_URL params
    match requestsGetJson world url with
    | .error e => excPayload e
    | .ok data =>
      match pyGetD data "records" (Json.arr []) with
      | .error e => excPayload e
      | .ok records =>
        Json.obj [("crop", Json.str commodity), ("state", Json.str state),
                  ("records", records)]

/-! ## Agent executor configuration -/

/-- Options the source passes when constructing the `AgentExecutor`
(lines 101 to 106 of `app.py`). -/
structure AgentExecutorConfig where
  verbose : Bool
  handleParsingErrors : Bool

/-- The configuration the source constructs: `verbose=True,
handle_parsing_errors=True`. -/
def agent_executor_config : AgentExecutorConfig :=
  { verbose := true, handleParsingErrors := true }

/-! ## The query endpoint -/

/-- HTTP response of the query endpoint: a status code and a JSON body
(`jsonify` of a value defaults to status 200). -/
structure HandlerResult where
  status : Nat
  body : Json

/-- Faults that escape the handler to the Flask framework. They can only
arise on lines 126 to 130 of `app.py`, before the `try` block: a request
body that is not valid JSON makes `request.get_json()` raise a
`BadRequest` that Flask renders as its own 400 error page, and an
uncaught exception (a `.get` on a non-dictionary body) becomes the
framework's unhandled-fault 500 page. -/
inductive Fault where
  | badRequestPage
  | unhandled (detail : String)

/-- Request body of `POST /api/query`: syntactically invalid JSON, or the
parsed JSON value (which need not be an object). -/
inductive ReqBody where
  | invalidJson
  | val (j : Json)

/-- Helper of `extractOne`: fold keeping the first choice of maximal
score, as Python `max` keeps the earliest maximal element. -/
def extractBest (score : Json → Json → Nat) (query : Json) :
    Json × Nat → List Json → Json × Nat
  | best, [] => best
  | best, x :: xs =>
    extractBest score query
      (if best.2 < score query x then (x, score query x) else best) xs

/-- Model of `fuzzywuzzy.process.extractOne(query, choices)`: `None` on an
empty choice list, otherwise a pair of the best-scoring choice (ties to
the earliest) and its score. The similarity scorer itself belongs to the
external library, so it is a parameter; every theorem below uses only
what holds for each scorer, chiefly that the returned choice is one of
the choices. -/
def extractOne (score : Json → Json → Nat) (query : Json) :
    List Json → Option (Json × Nat)
  | [] => none
  | c :: cs => some (extractBest score query (c, score query c) cs)

/-- Iteration of a `for rec in records` comprehension over a JSON value:
a list yields its elements, a string yields its characters as
one-character strings (on which the body's `.get` call then raises),
anything else raises `TypeError` as not iterable. -/
def iterElems : Json → Except PyExc (List Json)
  | .arr xs => .ok xs
  | .str s => .ok (s.data.map fun c => Json.str (String.singleton c))
  | _ => .error (.other "TypeError: object is not iterable")

/-- Line 154 of `app.py`:
`market_names = [rec.get("market", "") for rec in records]`. -/
def marketNames : List Json → Except PyExc (List Json)
  | [] => .ok []
  | r :: rs =>
    match pyGetD r "market" (Json.str "") with
    | .error e => .error e
    | .ok v =>
      match marketNames rs with
      | .error e => .error e
      | .ok vs => .ok (v :: vs)

/-- Line 156 of `app.py`:
`records = [rec for rec in records if rec.get("market") == best_match]`. -/
def filterByMarket (best : Json) : List Json → Except PyExc (List Json)
  | [] => .ok []
  | r :: rs =>
    match pyGetN r "market" with
    | .error e => .error e
    | .ok v =>
      match filterByMarket best rs with
      | .error e => .error e
      | .ok rest => .ok (if Json.beq v best then r :: rest else rest)

/-- Lines 153 to 156 of `app.py`, the market filter taken when a truthy
`market` was supplied. When the record list is empty, `extractOne`
returns `None` and the tuple unpacking on line 155 raises a `TypeError`. -/
def marketFilterStep (score : Json → Json → Nat) (market records : Json) :
    Except PyExc Json :=
  match iterElems records with
  | .error e => .error e
  | .ok recs =>
    match marketNames recs with
    | .error e => .error e
    | .ok names =>
      match extractOne score market names with
      | none => .error (.other "TypeError: cannot unpack non-iterable NoneType object")
      | some (best, _) =>
        match filterByMarket best recs with
        | .error e => .error e
        | .ok kept => .ok (Json.arr kept)

/-- Lines 161 to 169 of `app.py`: one record of the display table, each
field read with `rec.get(key, "")`. -/
def formatRecord (r : Json) : Except PyExc Json := do
  let market ← pyGetD r "market" (Json.str "")
  let minPrice ← pyGetD r "min_price" (Json.str "")
  let maxPrice ← pyGetD r "max_price" (Json.str "")
  let modalPrice ← pyGetD r "modal_price" (Json.str "")
  let date ← pyGetD r "arrival_date" (Json.str "")
  let commodity ← pyGetD r "commodity" (Json.str "")
  let state ← pyGetD r "state" (Json.str "")
  pure (Json.obj [("Market", market), ("Min Price (₹)", minPrice),
    ("Max Price (₹)", maxPrice), ("Modal Price (₹)", modalPrice),
    ("Date", date), ("Commodity", commodity), ("State", state)])

/-- The `formatted_records` comprehension applied to the iterated
records, in order. -/
def formatRecords : List Json → Except PyExc (List Json)
  | [] => .ok []
  | r :: rs =>
    match formatRecord r with
    | .error e => .error e
    | .ok f =>
      match formatRecords rs with
      | .error e => .error e
      | .ok fs => .ok (f :: fs)

/-- Lines 158 to 178 of `app.py`: the `if not records:` 404 branch, then
the reshaping and the `type: table` success payload. `dataJ` is the
parsed tool result (for `data.get("crop", "")` and
`data.get("state", "")`), `records1` the (possibly filtered) records
value. -/
def respondRecords (dataJ records1 : Json) : Except PyExc HandlerResult :=
  if truthy records1 then
    match iterElems records1 with
    | .error e => .error e
    | .ok recs =>
      match formatRecords recs with
      | .error e => .error e
      | .ok formatted =>
        match pyGetD dataJ "crop" (Json.str "") with
        | .error e => .error e
        | .ok crop =>
          match pyGetD dataJ "state" (Json.str "") with
          | .error e => .error e
          | .ok state =>
            .ok ⟨200, Json.obj [("type", Json.str "table"),
                 ("data", Json.obj [("crop", crop), ("state", state),
                                    ("records", Json.arr formatted)])]⟩
  else
    .ok ⟨404, Json.obj [("error", Json.str "No records found")]⟩

/-- Lines 145 to 178 of `app.py`: the part of the `try` block after the
tool call, applied to the parsed tool result `dataJ`
(`data = json.loads(output_text)`). -/
def afterLookup (score : Json → Json → Nat) (market dataJ : Json) :
    Except PyExc HandlerResult :=
  if hasKey dataJ "error" then
    .ok ⟨200, Json.obj [("error", jsonIndex dataJ "error")]⟩
  else
    match pyGetD dataJ "records" (Json.arr []) with
    | .error e => .error e
    | .ok records0 =>
      match (if truthy market then marketFilterStep score market records0
             else .ok records0) with
      | .error e => .error e
      | .ok records1 => respondRecords dataJ records1

/-- The `try` block of the query handler (lines 132 to 178 of `app.py`).
`agentAvailable` is whether `agent_executor` is non-`None`, `agentResult`
the value `agent_executor.invoke({"input": question})` produces when that
path is taken. -/
def query_try (agentAvailable : Bool) (agentResult : Json) (world : HttpWorld)
    (apiKey : String) (score : Json → Json → Nat)
    (commodity state market question : Json) : Except PyExc HandlerResult :=
  if agentAvailable && truthy question then
    .ok ⟨200, Json.obj [("type", Json.str "agent"), ("response", agentResult)]⟩
  else if !(truthy commodity) || !(truthy state) then
    .ok ⟨400, Json.obj [("error", Json.str "Commodity & State are required")]⟩
  else
    let user_input := "price of " ++ pyToStr commodity ++ " in " ++ pyToStr state
    afterLookup score market (market_price world apiKey user_input)

/-- Python `data.get(key)` on the parsed request body when it is a
dictionary: the value under the key, `None` when absent. -/
def fieldVal (fields : List (String × Json)) (key : String) : Json :=
  (jsonLookup fields key).getD Json.null

/-- The `POST /api/query` route (lines 124 to 181 of `app.py`). The body
parse and the four field reads happen before the `try` block, so a body
that is not a JSON object raises outside the protected region and the
exception reaches Flask; inside the `try`, every exception is converted
to the in-band `Unexpected error` payload with the default 200 status. -/
def query_handler (agentAvailable : Bool) (agentResult : Json)
    (world : HttpWorld) (apiKey : String) (score : Json → Json → Nat)
    (body : ReqBody) : Except Fault HandlerResult :=
  match body with
  | .invalidJson => .error Fault.badRequestPage
  | .val j =>
    match j with
    | .obj fields =>
      match query_try agentAvailable agentResult world apiKey score
          (fieldVal fields "commodity") (fieldVal fields "state")
          (fieldVal fields "market") (fieldVal fields "question") with
      | .ok r => .ok r
      | .error e =>
        .ok ⟨200, Json.obj [("error", Json.str ("Unexpected error: " ++ e.detail))]⟩
    | _ => .error (Fault.unhandled "AttributeError: object has no attribute get")

/-! ## Claim-side definitions

Definitions in this section follow the words of the specification (not the
source); the theorems below compare the source-derived definitions against
them. -/

/-- Removal of a front occurrence of `pat` from `s` when present — the
specification's "strip a leading `price of ` prefix if present". -/
def stripLead (s pat : String) : String :=
  match stripHead pat.data s.data with
  | some rest => ⟨rest⟩
  | none => s

/-- The parse that claim C1 describes, word for word: split the
lower-cased input at the first occurrence of `" in "`, strip a leading
`"price of "` from the part before it, trim both; the state is the
whole remainder after the first separator. -/
def parse_market_query_claimed (query : String) : Option (String × String) :=
  (splitFirst " in " (pyLower query)).map fun p =>
    (pyStrip (stripLead p.1 "price of "), pyStrip p.2)

/-- Everything before the first occurrence of `sep`, the whole string
when `sep` does not occur. -/
def firstSeg (sep s : String) : String :=
  match splitFirst sep s with
  | none => s
  | some (a, _) => a

/-- Whether a JSON value is an object (a Python dictionary). -/
def Json.isObj : Json → Bool
  | .obj _ => true
  | _ => false

/-- The display reshaping of one record's fields, as the specification
words it: the seven display keys, each sourced from the record's
corresponding field, defaulting to the empty string when absent. -/
def reshapeFields (fs : List (String × Json)) : Json :=
  Json.obj [("Market", (jsonLookup fs "market").getD (Json.str "")),
            ("Min Price (₹)", (jsonLookup fs "min_price").getD (Json.str "")),
            ("Max Price (₹)", (jsonLookup fs "max_price").getD (Json.str "")),
            ("Modal Price (₹)", (jsonLookup fs "modal_price").getD (Json.str "")),
            ("Date", (jsonLookup fs "arrival_date").getD (Json.str "")),
            ("Commodity", (jsonLookup fs "commodity").getD (Json.str "")),
            ("State", (jsonLookup fs "state").getD (Json.str ""))]

/-- Total reshaping of a record (meaningful on objects; other values are
passed through and excluded by the theorems' hypotheses). -/
def reshapeRecord (r : Json) : Json :=
  match r with
  | .obj fs => reshapeFields fs
  | r => r

/-- Extraction of the `error` string of a handler response's body, empty
when the response has none. -/
def errorDetail (res : Except Fault HandlerResult) : String :=
  match res with
  | .ok r =>
    match r.body with
    | .obj fs =>
      match jsonLookup fs "error" with
      | some (.str m) => m
      | _ => ""
    | _ => ""
  | .error _ => ""

/-! ## Lemmas about the string primitives -/

theorem stripHead_length :
    ∀ (sep s r : List Char), stripHead sep s = some r →
      r.length + sep.length = s.length := by
  intro sep
  induction sep with
  | nil =>
    intro s r h
    simp [stripHead] at h
    subst h
    simp
  | cons p ps ih =>
    intro s r h
    cases s with
    | nil => simp [stripHead] at h
    | cons c cs =>
      simp only [stripHead] at h
      by_cases hc : p = c
      · simp only [hc, if_pos rfl] at h
        have := ih cs r h
        simp only [List.length_cons]
        omega
      · simp [hc] at h

theorem splitFirstL_length (sep : List Char) (hsep : sep ≠ []) :
    ∀ (s a b : List Char), splitFirstL sep s = some (a, b) →
      a.length + sep.length + b.length = s.length := by
  intro s
  induction s with
  | nil =>
    intro a b h
    simp [splitFirstL, List.isEmpty_iff, hsep] at h
  | cons c cs ih =>
    intro a b h
    simp only [splitFirstL] at h
    cases hs : stripHead sep (c :: cs) with
    | some rest =>
      rw [hs] at h
      simp only [Option.some_inj, Prod.mk.injEq] at h
      obtain ⟨ha, hb⟩ := h
      subst ha
      subst hb
      have hl := stripHead_length sep (c :: cs) rest hs
      simp only [List.length_nil, List.length_cons] at *
      omega
    | none =>
      rw [hs] at h
      cases hrec : splitFirstL sep cs with
      | none => rw [hrec] at h; simp at h
      | some p =>
        obtain ⟨a1, b1⟩ := p
        rw [hrec] at h
        simp only [Option.some_inj, Prod.mk.injEq] at h
        obtain ⟨ha, hb⟩ := h
        have hrec2 := ih a1 b1 hrec
        subst ha
        subst hb
        simp only [List.length_cons]
        omega

theorem splitFirstL_rest_lt (sep : List Char) (hsep : sep ≠ [])
    (s a b : List Char) (h : splitFirstL sep s = some (a, b)) :
    b.length < s.length := by
  have hlen := splitFirstL_length sep hsep s a b h
  have : 0 < sep.length := List.length_pos.mpr hsep
  omega

theorem pySplitFuel_congr (sep : List Char) (hsep : sep ≠ []) :
    ∀ (n m : Nat) (s : List Char), s.length < n → s.length < m →
      pySplitFuel sep n s = pySplitFuel sep m s := by
  intro n
  induction n with
  | zero => intro m s h; omega
  | succ n ih =>
    intro m s hn hm
    cases m with
    | zero => omega
    | succ m =>
      simp only [pySplitFuel]
      cases h : splitFirstL sep s with
      | none => rfl
      | some p =>
        obtain ⟨a, b⟩ := p
        have hb := splitFirstL_rest_lt sep hsep s a b h
        simp only []
        rw [ih m b (by omega) (by omega)]

theorem pySplitL_unfold (sep : List Char) (hsep : sep ≠ []) (s : List Char) :
    pySplitL sep s = match splitFirstL sep s with
      | none => [s]
      | some (a, b) => a :: pySplitL sep b := by
  unfold pySplitL
  conv_lhs => rw [pySplitFuel]
  cases h : splitFirstL sep s with
  | none => rfl
  | some p =>
    obtain ⟨a, b⟩ := p
    have hb := splitFirstL_rest_lt sep hsep s a b h
    simp only []
    rw [pySplitFuel_congr sep hsep s.length (b.length + 1) b (by omega) (by omega)]

theorem splitFirstL_none_iff (sep : List Char) :
    ∀ s, splitFirstL sep s = none ↔ strContainsL sep s = false := by
  intro s
  induction s with
  | nil =>
    simp only [splitFirstL, strContainsL]
    cases sep with
    | nil => simp [stripHead, List.isEmpty]
    | cons p ps => simp [stripHead, List.isEmpty]
  | cons c cs ih =>
    simp only [splitFirstL, strContainsL]
    cases hs : stripHead sep (c :: cs) with
    | some rest => simp
    | none =>
      simp only [Option.isSome_none, Bool.false_or]
      cases hrec : splitFirstL sep cs with
      | none => simpa [hrec] using ih
      | some p => obtain ⟨a, b⟩ := p; simpa [hrec] using ih

theorem pySplit_of_not_contains (sep s : String) (hsep : sep.data ≠ [])
    (h : strContains s sep = false) : pySplit sep s = [s] := by
  have h1 : splitFirstL sep.data s.data = none :=
    (splitFirstL_none_iff sep.data s.data).mpr h
  unfold pySplit
  rw [pySplitL_unfold sep.data hsep s.data, h1]
  rfl

theorem pySplit_cons_of_splitFirst (sep s a b : String) (hsep : sep.data ≠ [])
    (h : splitFirst sep s = some (a, b)) :
    pySplit sep s = a :: pySplit sep b := by
  unfold splitFirst at h
  cases hL : splitFirstL sep.data s.data with
  | none => rw [hL] at h; simp at h
  | some p =>
    obtain ⟨la, lb⟩ := p
    rw [hL] at h
    simp only [Option.map_some', Option.some_inj, Prod.mk.injEq] at h
    obtain ⟨ha, hb⟩ := h
    have hla : la = a.data := by rw [← ha]
    have hlb : lb = b.data := by rw [← hb]
    subst hla
    subst hlb
    unfold pySplit
    rw [pySplitL_unfold sep.data hsep s.data, hL]
    simp only [List.map_cons]

theorem splitFirst_none_iff (sep s : String) :
    splitFirst sep s = none ↔ strContains s sep = false := by
  unfold splitFirst
  rw [Option.map_eq_none']
  exact splitFirstL_none_iff sep.data s.data

/-! ## Lemmas about JSON equality and extractOne -/

mutual

theorem Json.beq_refl : (j : Json) → Json.beq j j = true
  | .null => rfl
  | .str s => by simp [Json.beq]
  | .num n => by simp [Json.beq]
  | .arr xs => by simpa [Json.beq] using Json.beqList_refl xs
  | .obj fs => by simpa [Json.beq] using Json.beqFields_refl fs

theorem Json.beqList_refl : (xs : List Json) → Json.beqList xs xs = true
  | [] => rfl
  | x :: xs => by
    simp only [Json.beqList, Bool.and_eq_true]
    exact ⟨Json.beq_refl x, Json.beqList_refl xs⟩

theorem Json.beqFields_refl :
    (fs : List (String × Json)) → Json.beqFields fs fs = true
  | [] => rfl
  | (k, v) :: fs => by
    simp only [Json.beqFields, Bool.and_eq_true]
    exact ⟨⟨by simp, Json.beq_refl v⟩, Json.beqFields_refl fs⟩

end

theorem extractBest_mem (score : Json → Json → Nat) (query : Json) :
    ∀ (xs : List Json) (best : Json × Nat),
      (extractBest score query best xs).1 = best.1 ∨
        (extractBest score query best xs).1 ∈ xs := by
  intro xs
  induction xs with
  | nil => intro best; left; rfl
  | cons x xs ih =>
    intro best
    simp only [extractBest]
    by_cases hlt : best.2 < score query x
    · rw [if_pos hlt]
      rcases ih (x, score query x) with h | h
      · right
        rw [h]
        exact List.mem_cons_self x xs
      · right
        exact List.mem_cons_of_mem x h
    · rw [if_neg hlt]
      rcases ih best with h | h
      · left
        exact h
      · right
        exact List.mem_cons_of_mem x h

theorem extractOne_mem (score : Json → Json → Nat) (query best : Json)
    (sc : Nat) (choices : List Json)
    (h : extractOne score query choices = some (best, sc)) : best ∈ choices := by
  cases choices with
  | nil => simp [extractOne] at h
  | cons c cs =>
    simp only [extractOne, Option.some_inj] at h
    have hm := extractBest_mem score query cs (c, score query c)
    rw [h] at hm
    rcases hm with h1 | h1
    · simp only at h1
      rw [h1]
      exact List.mem_cons_self c cs
    · exact List.mem_cons_of_mem c h1

theorem extractOne_eq_none_iff (score : Json → Json → Nat) (query : Json)
    (choices : List Json) :
    extractOne score query choices = none ↔ choices = [] := by
  cases choices <;> simp [extractOne]

/-! ## Claim C1 -/

/-- Claim C1, counterexample: on the input
`"price of price of onion in andaman in nicobar"` the code parses
commodity `"onion"` (Python `replace` removes both occurrences of
`"price of "`) and state `"andaman"` (Python `parts[1]` is the segment
between the first and the second separator), while the claim predicts
commodity `"price of onion"` (only a leading occurrence stripped) and
state `"andaman in nicobar"` (the whole remainder). -/
theorem C1_counterexample :
    parse_market_query "price of price of onion in andaman in nicobar"
        = some ("onion", "andaman")
    ∧ parse_market_query_claimed "price of price of onion in andaman in nicobar"
        = some ("price of onion", "andaman in nicobar")
    ∧ (("onion", "andaman") : String × String)
        ≠ ("price of onion", "andaman in nicobar") :=
  ⟨rfl, rfl, by decide⟩

/-- Claim C1 (corrected): for every input whose lower-cased form contains
the separator, the parsed commodity is the text before the first
occurrence of `" in "` with every occurrence of `"price of "` removed
(not only a leading one) and trimmed, and the parsed state is the text
between the first and the second occurrence of the separator (not the
whole remainder), trimmed. -/
theorem C1_theorem (q p0 rest : String)
    (h : splitFirst " in " (pyLower q) = some (p0, rest)) :
    parse_market_query q =
      some (pyStrip (pyReplace p0 "price of " ""),
            pyStrip (firstSeg " in " rest)) := by
  unfold parse_market_query firstSeg
  rw [pySplit_cons_of_splitFirst " in " (pyLower q) p0 rest (by decide) h]
  cases h2 : splitFirst " in " rest with
  | none =>
    have hc := (splitFirst_none_iff " in " rest).mp h2
    rw [pySplit_of_not_contains " in " rest (by decide) hc]
  | some p =>
    obtain ⟨a1, b1⟩ := p
    rw [pySplit_cons_of_splitFirst " in " rest a1 b1 (by decide) h2]

/-- Claim C1, witness: the corrected statement applied to the valid query
`"price of tomato in maharashtra"`. -/
theorem C1_witness :
    splitFirst " in " (pyLower "price of tomato in maharashtra")
        = some ("price of tomato", "maharashtra")
    ∧ parse_market_query "price of tomato in maharashtra"
        = some (pyStrip (pyReplace "price of tomato" "price of " ""),
                pyStrip (firstSeg " in " "maharashtra")) :=
  ⟨rfl, C1_theorem "price of tomato in maharashtra" "price of tomato" "maharashtra" rfl⟩

/-! ## Claim C2 -/

/-- Claim C2 (confirmed): when the lower-cased query does not contain the
separator `" in "`, `market_price` returns exactly the format-error
payload, for every behaviour of the external API and every key — in
particular the result does not depend on the external call, which is
never made. -/
theorem C2_theorem (q apiKey : String) (world : HttpWorld)
    (h : strContains (pyLower q) " in " = false) :
    market_price world apiKey q
      = Json.obj [("error",
          Json.str "Format error. Use 'price of [commodity] in [state]'")] := by
  have hp : parse_market_query q = none := by
    unfold parse_market_query
    rw [pySplit_of_not_contains " in " (pyLower q) (by decide) h]
  unfold market_price
  rw [hp]
  rfl

/-- Claim C2, witness: the statement applied to the separator-free query
`"tomato maharashtra"`. -/
theorem C2_witness :
    strContains (pyLower "tomato maharashtra") " in " = false
    ∧ market_price (.response 200 "OK" Json.null) "K" "tomato maharashtra"
        = Json.obj [("error",
            Json.str "Format error. Use 'price of [commodity] in [state]'")] :=
  ⟨rfl, C2_theorem "tomato maharashtra" "K" (.response 200 "OK" Json.null) rfl⟩

/-! ## Claim C9 -/

/-- Claim C9, counterexample: the claim says the executor is built with
verbose tracing and WITHOUT parsing-error recovery; the source passes
`handle_parsing_errors=True`, so the conjunction the claim states is
false. -/
theorem C9_counterexample :
    ¬ (agent_executor_config.verbose = true
        ∧ agent_executor_config.handleParsingErrors = false) := by
  decide

/-- Claim C9 (corrected): the agent executor is configured for verbose
execution tracing AND with parsing-error recovery enabled
(`verbose=True, handle_parsing_errors=True` on lines 101 to 106). -/
theorem C9_theorem :
    agent_executor_config.verbose = true
    ∧ agent_executor_config.handleParsingErrors = true :=
  ⟨rfl, rfl⟩

/-! ## Claim C6 -/

theorem market_price_parsed (world : HttpWorld) (apiKey q c s : String)
    (hparse : parse_market_query q = some (c, s)) :
    market_price world apiKey q =
      match requestsGetJson world (preparedUrl BASE_URL
          [("api-key", apiKey), ("format", "json"),
           ("filters[state]", pyTitle s), ("filters[commodity]", pyTitle c),
           ("limit", "100")]) with
      | .error e => excPayload e
      | .ok data =>
        match pyGetD data "records" (Json.arr []) with
        | .error e => excPayload e
        | .ok records =>
          Json.obj [("crop", Json.str c), ("state", Json.str s),
                    ("records", records)] := by
  unfold market_price
  rw [hparse]

/-- Claim C6 (confirmed): once the query parses (the external call is
reached), a `RequestException` raised by the call maps to the
`API request failed` payload with the exception's message, a 4xx or 5xx
status (via `raise_for_status`) maps to an `API request failed` payload,
any other failure — another exception from the call, or the shape
failure while reading the parsed response body when it is not a
dictionary — maps to the `Unexpected error` payload; every case returns
a payload (the embedded function is total) instead of raising, and the
single `HttpWorld` consultation reflects that exactly one attempt, never
a retry, is made. -/
theorem C6_theorem (apiKey q d : String) (c s : String)
    (hparse : parse_market_query q = some (c, s)) :
    (market_price (.raisesReqExc d) apiKey q
        = Json.obj [("error", Json.str ("API request failed: " ++ d))])
    ∧ (market_price (.raisesOther d) apiKey q
        = Json.obj [("error", Json.str ("Unexpected error: " ++ d))])
    ∧ (∀ status : Nat, ∀ reason : String, ∀ body : Json,
        400 ≤ status → status < 600 →
        ∃ msg, market_price (.response status reason body) apiKey q
          = Json.obj [("error", Json.str ("API request failed: " ++ msg))])
    ∧ (∀ status : Nat, ∀ reason : String, ∀ body : Json,
        ¬ (400 ≤ status ∧ status < 600) → Json.isObj body = false →
        ∃ msg, market_price (.response status reason body) apiKey q
          = Json.obj [("error", Json.str ("Unexpected error: " ++ msg))]) := by
  refine ⟨?_, ?_, ?_, ?_⟩
  · rw [market_price_parsed _ apiKey q c s hparse]
    rfl
  · rw [market_price_parsed _ apiKey q c s hparse]
    rfl
  · intro status reason body h1 h2
    refine ⟨httpErrorMsg status reason (preparedUrl BASE_URL
      [("api-key", apiKey), ("format", "json"),
       ("filters[state]", pyTitle s), ("filters[commodity]", pyTitle c),
       ("limit", "100")]), ?_⟩
    rw [market_price_parsed _ apiKey q c s hparse]
    simp only [requestsGetJson]
    rw [if_pos ⟨h1, h2⟩]
    rfl
  · intro status reason body h1 h2
    refine ⟨"AttributeError: object has no attribute get", ?_⟩
    rw [market_price_parsed _ apiKey q c s hparse]
    simp only [requestsGetJson]
    rw [if_neg h1]
    cases body <;> simp_all [Json.isObj, pyGetD, excPayload]

/-- Claim C6, witness: the statement applied to the parsing query
`"price of tomato in maharashtra"`, a transport failure with message
`"boom"` and a 503 response. -/
theorem C6_witness :
    parse_market_query "price of tomato in maharashtra"
        = some ("tomato", "maharashtra")
    ∧ market_price (.raisesReqExc "boom") "K" "price of tomato in maharashtra"
        = Json.obj [("error", Json.str ("API request failed: " ++ "boom"))]
    ∧ market_price (.raisesOther "boom") "K" "price of tomato in maharashtra"
        = Json.obj [("error", Json.str ("Unexpected error: " ++ "boom"))]
    ∧ ∃ msg, market_price (.response 503 "Service Unavailable" Json.null)
          "K" "price of tomato in maharashtra"
        = Json.obj [("error", Json.str ("API request failed: " ++ msg))] :=
  by
  have h := C6_theorem "K" "price of tomato in maharashtra" "boom"
    "tomato" "maharashtra" rfl
  exact ⟨rfl, h.1, h.2.1,
    h.2.2.1 503 "Service Unavailable" Json.null (by decide) (by decide)⟩

/-! ## Claim C5 -/

/-- Claim C5 (confirmed): when the agent is enabled and the `question`
field is truthy, the handler takes the agent path and answers with the
`type: agent` payload regardless of the other fields; otherwise, when
`commodity` or `state` is missing or empty, it answers 400
`Commodity & State are required` — for every behaviour of the external
API, which is therefore never consulted on that path. -/
theorem C5_theorem (agentResult : Json) (world : HttpWorld) (apiKey : String)
    (score : Json → Json → Nat) (fields : List (String × Json)) :
    (truthy (fieldVal fields "question") = true →
      query_handler true agentResult world apiKey score (.val (Json.obj fields))
        = .ok ⟨200, Json.obj [("type", Json.str "agent"),
                              ("response", agentResult)]⟩)
    ∧ (∀ agentAvailable : Bool,
        (agentAvailable && truthy (fieldVal fields "question")) = false →
        (truthy (fieldVal fields "commodity") = false
          ∨ truthy (fieldVal fields "state") = false) →
        query_handler agentAvailable agentResult world apiKey score
            (.val (Json.obj fields))
          = .ok ⟨400, Json.obj [("error",
              Json.str "Commodity & State are required")]⟩) := by
  constructor
  · intro hq
    have ht : query_try true agentResult world apiKey score
        (fieldVal fields "commodity") (fieldVal fields "state")
        (fieldVal fields "market") (fieldVal fields "question")
        = .ok ⟨200, Json.obj [("type", Json.str "agent"),
                              ("response", agentResult)]⟩ := by
      unfold query_try
      simp [hq]
    simp only [query_handler]
    rw [ht]
  · intro aa hq hcs
    have ht : query_try aa agentResult world apiKey score
        (fieldVal fields "commodity") (fieldVal fields "state")
        (fieldVal fields "market") (fieldVal fields "question")
        = .ok ⟨400, Json.obj [("error",
            Json.str "Commodity & State are required")]⟩ := by
      unfold query_try
      rcases hcs with h | h <;> simp [hq, h]
    simp only [query_handler]
    rw [ht]

/-- Claim C5, witness: the agent path taken with only a `question` field
present, and the 400 answer for a body carrying only a `market` field. -/
theorem C5_witness :
    query_handler true (Json.str "hi") (.response 200 "OK" Json.null) "K"
        (fun _ _ => 0) (.val (Json.obj [("question", Json.str "what")]))
      = .ok ⟨200, Json.obj [("type", Json.str "agent"),
                            ("response", Json.str "hi")]⟩
    ∧ query_handler false (Json.str "hi") (.response 200 "OK" Json.null) "K"
        (fun _ _ => 0) (.val (Json.obj [("market", Json.str "pune")]))
      = .ok ⟨400, Json.obj [("error",
          Json.str "Commodity & State are required")]⟩ :=
  ⟨(C5_theorem (Json.str "hi") (.response 200 "OK" Json.null) "K"
      (fun _ _ => 0) [("question", Json.str "what")]).1 (by decide),
   (C5_theorem (Json.str "hi") (.response 200 "OK" Json.null) "K"
      (fun _ _ => 0) [("market", Json.str "pune")]).2 false (by decide)
      (Or.inl (by decide))⟩

/-! ## Claim C8 -/

/-- Claim C8 (code bug): the mandatory data-API credential DOES appear in
a response body. With the key `SECRETKEY123`, a structured query for
tomato in maharashtra and a 503 from the upstream API, the handler's
in-band error detail is the `HTTPError` message, which names the full
request URL including `api-key=SECRETKEY123`; the claim (and the spec's
"never exposed in responses") is the evident intent, and interpolating
the raw exception into the user-visible payload violates it. -/
theorem C8_theorem :
    errorDetail (query_handler false Json.null
        (.response 503 "Service Unavailable" Json.null) "SECRETKEY123"
        (fun _ _ => 0)
        (.val (Json.obj [("commodity", Json.str "tomato"),
                         ("state", Json.str "maharashtra")])))
      = "API request failed: 503 Server Error: Service Unavailable for url: https://api.data.gov.in/resource/9ef84268-d588-465a-a308-a864a43d0070?api-key=SECRETKEY123&format=json&filters%5Bstate%5D=Maharashtra&filters%5Bcommodity%5D=Tomato&limit=100"
    ∧ strContains (errorDetail (query_handler false Json.null
        (.response 503 "Service Unavailable" Json.null) "SECRETKEY123"
        (fun _ _ => 0)
        (.val (Json.obj [("commodity", Json.str "tomato"),
                         ("state", Json.str "maharashtra")]))))
      "SECRETKEY123" = true :=
  ⟨rfl, rfl⟩

/-! ## Handler status lemmas -/

theorem respondRecords_status (dataJ records1 : Json) (r : HandlerResult)
    (h : respondRecords dataJ records1 = .ok r) :
    r.status = 200 ∨ r.status = 404 := by
  unfold respondRecords at h
  split at h
  · split at h
    · exact absurd h (by simp)
    · split at h
      · exact absurd h (by simp)
      · split at h
        · exact absurd h (by simp)
        · split at h
          · exact absurd h (by simp)
          · simp only [Except.ok.injEq] at h
            subst h
            exact Or.inl rfl
  · simp only [Except.ok.injEq] at h
    subst h
    exact Or.inr rfl

theorem respondRecords_truthy_status (dataJ records1 : Json)
    (r : HandlerResult) (htru : truthy records1 = true)
    (h : respondRecords dataJ records1 = .ok r) : r.status = 200 := by
  unfold respondRecords at h
  rw [htru] at h
  simp only [if_pos] at h
  split at h
  · exact absurd h (by simp)
  · split at h
    · exact absurd h (by simp)
    · split at h
      · exact absurd h (by simp)
      · split at h
        · exact absurd h (by simp)
        · simp only [Except.ok.injEq] at h
          subst h
          rfl

theorem afterLookup_status (score : Json → Json → Nat) (market dataJ : Json)
    (r : HandlerResult) (h : afterLookup score market dataJ = .ok r) :
    r.status = 200 ∨ r.status = 404 := by
  unfold afterLookup at h
  split at h
  · simp only [Except.ok.injEq] at h
    subst h
    exact Or.inl rfl
  · split at h
    · exact absurd h (by simp)
    · split at h
      · exact absurd h (by simp)
      · exact respondRecords_status _ _ _ h

theorem query_try_status (aa : Bool) (ar : Json) (world : HttpWorld)
    (apiKey : String) (score : Json → Json → Nat) (c s m qn : Json)
    (r : HandlerResult) (h : query_try aa ar world apiKey score c s m qn = .ok r) :
    r.status = 200 ∨ r.status = 400 ∨ r.status = 404 := by
  unfold query_try at h
  split at h
  · simp only [Except.ok.injEq] at h
    subst h
    exact Or.inl rfl
  · split at h
    · simp only [Except.ok.injEq] at h
      subst h
      exact Or.inr (Or.inl rfl)
    · rcases afterLookup_status _ _ _ _ h with h2 | h2
      · exact Or.inl h2
      · exact Or.inr (Or.inr h2)

theorem query_handler_obj (aa : Bool) (ar : Json) (world : HttpWorld)
    (apiKey : String) (score : Json → Json → Nat)
    (fields : List (String × Json)) :
    query_handler aa ar world apiKey score (.val (Json.obj fields))
      = match query_try aa ar world apiKey score (fieldVal fields "commodity")
          (fieldVal fields "state") (fieldVal fields "market")
          (fieldVal fields "question") with
        | .ok r => .ok r
        | .error e =>
          .ok ⟨200, Json.obj [("error",
              Json.str ("Unexpected error: " ++ e.detail))]⟩ := rfl

/-! ## Claim C3 -/

/-- Claim C3, counterexample: a request whose body is the valid JSON
value `null` (so `request.get_json()` succeeds and returns `None`) makes
`data.get("commodity")` on line 127 raise an `AttributeError` OUTSIDE
the `try` block: the exception reaches Flask, which answers with its
unhandled-fault 500 page — not a caught, in-band 200/400/404 JSON
response as the claim states. -/
theorem C3_counterexample :
    query_handler false Json.null (.response 200 "OK" Json.null) "K"
        (fun _ _ => 0) (.val Json.null)
      = .error (Fault.unhandled "AttributeError: object has no attribute get") :=
  rfl

/-- Claim C3 (corrected): for every request whose body parses to a JSON
object, the handler always answers in-band with status 200, 400 or 404,
and any exception raised inside the `try` block is caught and turned
into the 200 `Unexpected error` payload; but the body parse and the four
field reads happen before the `try`, so bodies that are not JSON objects
(or not valid JSON at all) fail outside the protected region and surface
as framework error pages instead. -/
theorem C3_theorem (aa : Bool) (ar : Json) (world : HttpWorld)
    (apiKey : String) (score : Json → Json → Nat)
    (fields : List (String × Json)) :
    (∃ r, query_handler aa ar world apiKey score (.val (Json.obj fields)) = .ok r
       ∧ (r.status = 200 ∨ r.status = 400 ∨ r.status = 404))
    ∧ (∀ e, query_try aa ar world apiKey score (fieldVal fields "commodity")
          (fieldVal fields "state") (fieldVal fields "market")
          (fieldVal fields "question") = .error e →
        query_handler aa ar world apiKey score (.val (Json.obj fields))
          = .ok ⟨200, Json.obj [("error",
              Json.str ("Unexpected error: " ++ e.detail))]⟩) := by
  constructor
  · cases hqt : query_try aa ar world apiKey score (fieldVal fields "commodity")
        (fieldVal fields "state") (fieldVal fields "market")
        (fieldVal fields "question") with
    | ok r =>
      refine ⟨r, ?_, query_try_status aa ar world apiKey score _ _ _ _ r hqt⟩
      rw [query_handler_obj, hqt]
    | error e =>
      refine ⟨⟨200, Json.obj [("error",
          Json.str ("Unexpected error: " ++ e.detail))]⟩, ?_, Or.inl rfl⟩
      rw [query_handler_obj, hqt]
  · intro e he
    rw [query_handler_obj, he]

/-- Claim C3, witness: the in-band guarantee applied to a concrete
object-bodied request (empty object, agent off): an in-band response
with one of the three statuses exists. -/
theorem C3_witness :
    ∃ r, query_handler false Json.null (.response 200 "OK" Json.null) "K"
        (fun _ _ => 0) (.val (Json.obj [])) = .ok r
      ∧ (r.status = 200 ∨ r.status = 400 ∨ r.status = 404) :=
  (C3_theorem false Json.null (.response 200 "OK" Json.null) "K"
    (fun _ _ => 0) []).1

/-! ## Claim C4 -/

theorem query_try_structured (aa : Bool) (ar : Json) (world : HttpWorld)
    (apiKey : String) (score : Json → Json → Nat) (c s m qn : Json)
    (hq : (aa && truthy qn) = false) (hc : truthy c = true)
    (hs : truthy s = true) :
    query_try aa ar world apiKey score c s m qn
      = afterLookup score m
          (market_price world apiKey
            ("price of " ++ pyToStr c ++ " in " ++ pyToStr s)) := by
  unfold query_try
  simp [hq, hc, hs]

theorem afterLookup_success (score : Json → Json → Nat) (m : Json)
    (c0 s0 : String) (rs : List Json) :
    afterLookup score m (Json.obj [("crop", Json.str c0),
        ("state", Json.str s0), ("records", Json.arr rs)])
      = match (if truthy m then marketFilterStep score m (Json.arr rs)
               else .ok (Json.arr rs)) with
        | .error e => .error e
        | .ok records1 =>
          respondRecords (Json.obj [("crop", Json.str c0),
            ("state", Json.str s0), ("records", Json.arr rs)]) records1 :=
  rfl

/-- Claim C4, counterexample: the claim's "in particular" case — zero
records from the lookup AND a supplied market — does not answer 404:
`process.extractOne` on the empty name list returns `None`, the tuple
unpacking raises a `TypeError` inside the `try`, and the endpoint
answers 200 with the in-band `Unexpected error` payload. -/
theorem C4_counterexample :
    query_handler false Json.null
        (.response 200 "OK" (Json.obj [("records", Json.arr [])])) "K"
        (fun _ _ => 0)
        (.val (Json.obj [("commodity", Json.str "onion"),
                         ("state", Json.str "karnataka"),
                         ("market", Json.str "pune")]))
      = .ok ⟨200, Json.obj [("error", Json.str
          "Unexpected error: TypeError: cannot unpack non-iterable NoneType object")]⟩
    ∧ (200 : Nat) ≠ 404 :=
  ⟨rfl, by decide⟩

/-- Claim C4 (corrected): on the structured path with a successful
lookup, the endpoint answers 404 `No records found` when the possibly
filtered records are empty — provided the fuzzy step itself does not
fail: concretely, when no market was supplied and the lookup's records
are empty, and when a market was supplied and the filter (which then ran
without raising) kept nothing. When the lookup's records are empty AND a
market is supplied, the fuzzy step raises instead and the endpoint
answers 200 `Unexpected error` (see the counterexample). -/
theorem C4_theorem (aa : Bool) (ar : Json) (world : HttpWorld)
    (apiKey : String) (score : Json → Json → Nat)
    (fields : List (String × Json)) (c0 s0 : String) (rs : List Json)
    (hq : (aa && truthy (fieldVal fields "question")) = false)
    (hc : truthy (fieldVal fields "commodity") = true)
    (hs : truthy (fieldVal fields "state") = true)
    (hlookup : market_price world apiKey
        ("price of " ++ pyToStr (fieldVal fields "commodity") ++ " in "
          ++ pyToStr (fieldVal fields "state"))
      = Json.obj [("crop", Json.str c0), ("state", Json.str s0),
                  ("records", Json.arr rs)]) :
    (truthy (fieldVal fields "market") = false → rs = [] →
      query_handler aa ar world apiKey score (.val (Json.obj fields))
        = .ok ⟨404, Json.obj [("error", Json.str "No records found")]⟩)
    ∧ (∀ kept : List Json, truthy (fieldVal fields "market") = true →
        marketFilterStep score (fieldVal fields "market") (Json.arr rs)
          = .ok (Json.arr kept) → kept = [] →
        query_handler aa ar world apiKey score (.val (Json.obj fields))
          = .ok ⟨404, Json.obj [("error", Json.str "No records found")]⟩) := by
  have hbase : query_try aa ar world apiKey score (fieldVal fields "commodity")
      (fieldVal fields "state") (fieldVal fields "market")
      (fieldVal fields "question")
      = afterLookup score (fieldVal fields "market")
          (Json.obj [("crop", Json.str c0), ("state", Json.str s0),
                     ("records", Json.arr rs)]) := by
    rw [query_try_structured aa ar world apiKey score _ _ _ _ hq hc hs, hlookup]
  constructor
  · intro hm hrs
    subst hrs
    rw [query_handler_obj, hbase, afterLookup_success, hm]
    rfl
  · intro kept hm hfil hkept
    subst hkept
    rw [query_handler_obj, hbase, afterLookup_success, hm]
    simp only [if_pos]
    rw [hfil]
    rfl

/-- Claim C4, witness: the corrected statement at two concrete worlds —
no market supplied and zero upstream records (404), and a supplied
market whose fuzzy filter keeps none of the two upstream records
(404). In the second scenario the scorer prefers the empty-string name
contributed by the record without a `market` key; the exact filter then
keeps neither record, since `rec.get("market")` without default is
`None` for that record. -/
theorem C4_witness :
    query_handler false Json.null
        (.response 200 "OK" (Json.obj [("records", Json.arr [])])) "K"
        (fun _ _ => 0)
        (.val (Json.obj [("commodity", Json.str "onion"),
                         ("state", Json.str "karnataka")]))
      = .ok ⟨404, Json.obj [("error", Json.str "No records found")]⟩
    ∧ query_handler false Json.null
        (.response 200 "OK" (Json.obj [("records", Json.arr
            [Json.obj [("market", Json.str "A")], Json.obj []])])) "K"
        (fun _ c => if Json.beq c (Json.str "") then 1 else 0)
        (.val (Json.obj [("commodity", Json.str "onion"),
                         ("state", Json.str "karnataka"),
                         ("market", Json.str "B")]))
      = .ok ⟨404, Json.obj [("error", Json.str "No records found")]⟩ :=
  ⟨(C4_theorem false Json.null
      (.response 200 "OK" (Json.obj [("records", Json.arr [])])) "K"
      (fun _ _ => 0)
      [("commodity", Json.str "onion"), ("state", Json.str "karnataka")]
      "onion" "karnataka" [] (by decide) (by decide) (by decide) rfl).1
      (by decide) rfl,
   (C4_theorem false Json.null
      (.response 200 "OK" (Json.obj [("records", Json.arr
          [Json.obj [("market", Json.str "A")], Json.obj []])])) "K"
      (fun _ c => if Json.beq c (Json.str "") then 1 else 0)
      [("commodity", Json.str "onion"), ("state", Json.str "karnataka"),
       ("market", Json.str "B")]
      "onion" "karnataka" [Json.obj [("market", Json.str "A")], Json.obj []]
      (by decide) (by decide) (by decide) rfl).2 []
      (by decide) rfl rfl⟩

/-! ## Claim C7 -/

theorem formatRecords_map (recs : List Json)
    (hobj : ∀ r ∈ recs, Json.isObj r = true) :
    formatRecords recs = .ok (recs.map reshapeRecord) := by
  induction recs with
  | nil => rfl
  | cons r rs ih =>
    have hr := hobj r (List.mem_cons_self r rs)
    have hrest := ih fun x hx => hobj x (List.mem_cons_of_mem r hx)
    cases r with
    | obj fs =>
      unfold formatRecords
      rw [show formatRecord (Json.obj fs) = .ok (reshapeFields fs) from rfl]
      rw [hrest]
      rfl
    | null => simp [Json.isObj] at hr
    | str s => simp [Json.isObj] at hr
    | num n => simp [Json.isObj] at hr
    | arr xs => simp [Json.isObj] at hr

theorem truthy_arr_of_ne_nil (kept : List Json) (h : kept ≠ []) :
    truthy (Json.arr kept) = true := by
  cases kept with
  | nil => exact absurd rfl h
  | cons x xs => rfl

/-- Claim C7 (confirmed): on a successful structured query, each record
surviving the optional market filter is reshaped into exactly the seven
display keys, sourced from the record's `market`, `min_price`,
`max_price`, `modal_price`, `arrival_date`, `commodity` and `state`
fields with the empty string for an absent field, and the response is
the `type: table` payload whose `records` are the reshaped records in
order; the record count is preserved. -/
theorem C7_theorem (aa : Bool) (ar : Json) (world : HttpWorld)
    (apiKey : String) (score : Json → Json → Nat)
    (fields : List (String × Json)) (c0 s0 : String) (rs kept : List Json)
    (hq : (aa && truthy (fieldVal fields "question")) = false)
    (hc : truthy (fieldVal fields "commodity") = true)
    (hs : truthy (fieldVal fields "state") = true)
    (hlookup : market_price world apiKey
        ("price of " ++ pyToStr (fieldVal fields "commodity") ++ " in "
          ++ pyToStr (fieldVal fields "state"))
      = Json.obj [("crop", Json.str c0), ("state", Json.str s0),
                  ("records", Json.arr rs)])
    (hfilter : (truthy (fieldVal fields "market") = false ∧ kept = rs)
      ∨ (truthy (fieldVal fields "market") = true
          ∧ marketFilterStep score (fieldVal fields "market") (Json.arr rs)
              = .ok (Json.arr kept)))
    (hne : kept ≠ [])
    (hobj : ∀ r ∈ kept, Json.isObj r = true) :
    query_handler aa ar world apiKey score (.val (Json.obj fields))
      = .ok ⟨200, Json.obj [("type", Json.str "table"),
          ("data", Json.obj [("crop", Json.str c0), ("state", Json.str s0),
            ("records", Json.arr (kept.map reshapeRecord))])]⟩
    ∧ (kept.map reshapeRecord).length = kept.length := by
  have hbase : query_try aa ar world apiKey score (fieldVal fields "commodity")
      (fieldVal fields "state") (fieldVal fields "market")
      (fieldVal fields "question")
      = afterLookup score (fieldVal fields "market")
          (Json.obj [("crop", Json.str c0), ("state", Json.str s0),
                     ("records", Json.arr rs)]) := by
    rw [query_try_structured aa ar world apiKey score _ _ _ _ hq hc hs, hlookup]
  have hresp : respondRecords (Json.obj [("crop", Json.str c0),
      ("state", Json.str s0), ("records", Json.arr rs)]) (Json.arr kept)
      = .ok ⟨200, Json.obj [("type", Json.str "table"),
          ("data", Json.obj [("crop", Json.str c0), ("state", Json.str s0),
            ("records", Json.arr (kept.map reshapeRecord))])]⟩ := by
    unfold respondRecords
    rw [truthy_arr_of_ne_nil kept hne]
    simp only [if_pos, iterElems, formatRecords_map kept hobj]
    rfl
  refine ⟨?_, by simp⟩
  rcases hfilter with ⟨hm, hkept⟩ | ⟨hm, hfil⟩
  · subst hkept
    rw [query_handler_obj, hbase, afterLookup_success, hm]
    simp [hresp]
  · rw [query_handler_obj, hbase, afterLookup_success, hm]
    simp [hfil, hresp]

/-- Claim C7, witness: a two-record success without market filter — one
record missing most fields reshapes with empty strings — and the exact
reshaped table payload comes back. -/
theorem C7_witness :
    query_handler false Json.null
        (.response 200 "OK" (Json.obj [("records", Json.arr
            [Json.obj [("market", Json.str "Pune"),
                       ("min_price", Json.num 100)],
             Json.obj []])])) "K" (fun _ _ => 0)
        (.val (Json.obj [("commodity", Json.str "tomato"),
                         ("state", Json.str "maharashtra")]))
      = .ok ⟨200, Json.obj [("type", Json.str "table"),
          ("data", Json.obj [("crop", Json.str "tomato"),
            ("state", Json.str "maharashtra"),
            ("records", Json.arr
              ([Json.obj [("market", Json.str "Pune"),
                          ("min_price", Json.num 100)],
                Json.obj []].map reshapeRecord))])]⟩ :=
  (C7_theorem false Json.null
    (.response 200 "OK" (Json.obj [("records", Json.arr
        [Json.obj [("market", Json.str "Pune"), ("min_price", Json.num 100)],
         Json.obj []])])) "K" (fun _ _ => 0)
    [("commodity", Json.str "tomato"), ("state", Json.str "maharashtra")]
    "tomato" "maharashtra"
    [Json.obj [("market", Json.str "Pune"), ("min_price", Json.num 100)],
     Json.obj []]
    [Json.obj [("market", Json.str "Pune"), ("min_price", Json.num 100)],
     Json.obj []]
    (by decide) (by decide) (by decide) rfl
    (Or.inl ⟨by decide, rfl⟩)
    (List.cons_ne_nil _ _)
    (by decide)).1

/-! ## Claim C10 -/

theorem marketNames_ok (rs : List Json)
    (hobj : ∀ r ∈ rs, Json.isObj r = true) :
    ∃ names, marketNames rs = .ok names
      ∧ names.length = rs.length
      ∧ ∀ v ∈ names, ∃ r ∈ rs, ∃ fs, r = Json.obj fs
          ∧ v = (jsonLookup fs "market").getD (Json.str "") := by
  induction rs with
  | nil => exact ⟨[], rfl, rfl, by simp⟩
  | cons r rs ih =>
    have hr := hobj r (List.mem_cons_self r rs)
    obtain ⟨names, hn, hlen, hmem⟩ :=
      ih fun x hx => hobj x (List.mem_cons_of_mem r hx)
    cases r with
    | obj fs =>
      refine ⟨(jsonLookup fs "market").getD (Json.str "") :: names, ?_, ?_, ?_⟩
      · unfold marketNames
        rw [show pyGetD (Json.obj fs) "market" (Json.str "")
              = .ok ((jsonLookup fs "market").getD (Json.str "")) from rfl, hn]
      · simp [hlen]
      · intro v hv
        rcases List.mem_cons.mp hv with hv1 | hv2
        · exact ⟨Json.obj fs, List.mem_cons_self _ _, fs, rfl, hv1⟩
        · obtain ⟨r2, hr2, fs2, hfs2, hval⟩ := hmem v hv2
          exact ⟨r2, List.mem_cons_of_mem _ hr2, fs2, hfs2, hval⟩
    | null => simp [Json.isObj] at hr
    | str s => simp [Json.isObj] at hr
    | num n => simp [Json.isObj] at hr
    | arr xs => simp [Json.isObj] at hr

theorem filterByMarket_ok (best : Json) (rs : List Json)
    (hobj : ∀ r ∈ rs, Json.isObj r = true) :
    ∃ kept, filterByMarket best rs = .ok kept
      ∧ ∀ r ∈ rs, ∀ fs, r = Json.obj fs →
          Json.beq ((jsonLookup fs "market").getD Json.null) best = true →
          r ∈ kept := by
  induction rs with
  | nil => exact ⟨[], rfl, by simp⟩
  | cons r rs ih =>
    have hr := hobj r (List.mem_cons_self r rs)
    obtain ⟨kept, hk, hmem⟩ :=
      ih fun x hx => hobj x (List.mem_cons_of_mem r hx)
    cases r with
    | obj fs =>
      by_cases hbeq :
          Json.beq ((jsonLookup fs "market").getD Json.null) best = true
      · refine ⟨Json.obj fs :: kept, ?_, ?_⟩
        · unfold filterByMarket
          rw [show pyGetN (Json.obj fs) "market"
                = .ok ((jsonLookup fs "market").getD Json.null) from rfl, hk]
          simp [hbeq]
        · intro x hx fs2 hfs2 hb2
          rcases List.mem_cons.mp hx with hx1 | hx2
          · rw [hx1]
            exact List.mem_cons_self _ _
          · exact List.mem_cons_of_mem _ (hmem x hx2 fs2 hfs2 hb2)
      · refine ⟨kept, ?_, ?_⟩
        · unfold filterByMarket
          rw [show pyGetN (Json.obj fs) "market"
                = .ok ((jsonLookup fs "market").getD Json.null) from rfl, hk]
          simp [hbeq]
        · intro x hx fs2 hfs2 hb2
          rcases List.mem_cons.mp hx with hx1 | hx2
          · rw [hx1] at hfs2
            have hfs : fs = fs2 := by
              injection hfs2
            rw [← hfs] at hb2
            exact absurd hb2 hbeq
          · exact hmem x hx2 fs2 hfs2 hb2
    | null => simp [Json.isObj] at hr
    | str s => simp [Json.isObj] at hr
    | num n => simp [Json.isObj] at hr
    | arr xs => simp [Json.isObj] at hr

/-- Claim C10 (confirmed): for a non-empty record list in which every
record is an object with a `market` key, the fuzzy-filter step (with any
scorer and any requested market value) succeeds and keeps at least one
record, because `extractOne` returns one of the names taken from the
records themselves; on that path the `No records found` 404 branch is
therefore unreachable. -/
theorem C10_theorem (score : Json → Json → Nat) (market : Json)
    (rs : List Json) (hne : rs ≠ [])
    (hkeys : ∀ r ∈ rs, ∃ fs, r = Json.obj fs
        ∧ (jsonLookup fs "market").isSome = true) :
    ∃ kept : List Json,
      marketFilterStep score market (Json.arr rs) = .ok (Json.arr kept)
      ∧ kept ≠ []
      ∧ ∀ (dataJ : Json) (r : HandlerResult),
          respondRecords dataJ (Json.arr kept) = .ok r → r.status ≠ 404 := by
  have hobj : ∀ r ∈ rs, Json.isObj r = true := by
    intro r hrm
    obtain ⟨fs, hfs, _⟩ := hkeys r hrm
    rw [hfs]
    rfl
  obtain ⟨names, hn, hlen, hmem⟩ := marketNames_ok rs hobj
  have hnames_ne : names ≠ [] := by
    intro h0
    apply hne
    apply List.length_eq_zero.mp
    rw [← hlen, h0]
    rfl
  cases hone : extractOne score market names with
  | none =>
    exact absurd ((extractOne_eq_none_iff score market names).mp hone) hnames_ne
  | some p =>
    obtain ⟨best, sc⟩ := p
    have hbest := extractOne_mem score market best sc names hone
    obtain ⟨r0, hr0, fs0, hfs0, hval⟩ := hmem best hbest
    obtain ⟨fs0', hfs0', hsome⟩ := hkeys r0 hr0
    have hfs_eq : fs0 = fs0' := by
      rw [hfs0] at hfs0'
      injection hfs0'
    obtain ⟨v, hv⟩ := Option.isSome_iff_exists.mp hsome
    obtain ⟨kept, hk, hkmem⟩ := filterByMarket_ok best rs hobj
    have hstep : marketFilterStep score market (Json.arr rs)
        = .ok (Json.arr kept) := by
      simp only [marketFilterStep, iterElems, hn, hone, hk]
    have hbeq : Json.beq ((jsonLookup fs0 "market").getD Json.null) best
        = true := by
      rw [hfs_eq, hv]
      have hval2 : best = v := by
        rw [hval, hfs_eq, hv]
        rfl
      rw [hval2]
      exact Json.beq_refl v
    have hin : r0 ∈ kept := hkmem r0 hr0 fs0 hfs0 hbeq
    refine ⟨kept, hstep, List.ne_nil_of_mem hin, ?_⟩
    intro dataJ r hresp
    have h200 := respondRecords_truthy_status dataJ (Json.arr kept) r
      (truthy_arr_of_ne_nil kept (List.ne_nil_of_mem hin)) hresp
    rw [h200]
    decide

/-- Claim C10, witness: one record with a `market` key; the filter step
keeps a non-empty list for the trivial scorer. -/
theorem C10_witness :
    ∃ kept : List Json,
      marketFilterStep (fun _ _ => 0) (Json.str "pune")
          (Json.arr [Json.obj [("market", Json.str "Pune")]])
        = .ok (Json.arr kept)
      ∧ kept ≠ []
      ∧ ∀ (dataJ : Json) (r : HandlerResult),
          respondRecords dataJ (Json.arr kept) = .ok r → r.status ≠ 404 :=
  C10_theorem (fun _ _ => 0) (Json.str "pune")
    [Json.obj [("market", Json.str "Pune")]]
    (List.cons_ne_nil _ _)
    (by
      intro r hr
      have hr1 := List.mem_singleton.mp hr
      rw [hr1]
      exact ⟨[("market", Json.str "Pune")], rfl, rfl⟩)

end AgriSathi
